import Mathlib

/-!
Verification development for the `hachi_core` CHIP-8 interpreter
(`src/lib.rs`).  The machine state and every public operation are embedded
shallowly: `u8`/`u16` values become `Nat` with explicit `% 2^w` where the
source wraps, fixed arrays become total functions out of `Nat` (the source
index-bound panics become explicit `Fault.outOfBounds` results), and the
ambient `rand::random()` byte consumed by instruction `C,x,nn` is threaded
as an explicit parameter of `tick`/`execute`.  A Rust panic (array index
out of bounds, `u16` underflow in debug builds, or the `unimplemented!`
catch-all of the opcode dispatch) is modelled as an `Except.error`.
-/

set_option maxHeartbeats 1000000

def DISPLAY_WIDTH : Nat := 64
def DISPLAY_HEIGHT : Nat := 32
def RAM_SIZE : Nat := 4096
def NUM_REGISTERS : Nat := 16
def STACK_SIZE : Nat := 16
def NUM_KEYS : Nat := 16
def START_ADDRESS : Nat := 0x200
def FONTSET_SIZE : Nat := 80

/-- The 80-byte glyph table from the source, one list entry per byte. -/
def FONTSET : List Nat :=
  [0xF0, 0x90, 0x90, 0x90, 0xF0,
   0x20, 0x60, 0x20, 0x20, 0x70,
   0xF0, 0x10, 0xF0, 0x80, 0xF0,
   0xF0, 0x10, 0xF0, 0x10, 0xF0,
   0x90, 0x90, 0xF0, 0x10, 0x10,
   0xF0, 0x80, 0xF0, 0x10, 0xF0,
   0xF0, 0x80, 0xF0, 0x90, 0xF0,
   0xF0, 0x10, 0x20, 0x40, 0x40,
   0xF0, 0x90, 0xF0, 0x90, 0xF0,
   0xF0, 0x90, 0xF0, 0x10, 0xF0,
   0xF0, 0x90, 0xF0, 0x90, 0x90,
   0xE0, 0x90, 0xE0, 0x90, 0xE0,
   0xF0, 0x80, 0x80, 0x80, 0xF0,
   0xE0, 0x90, 0x90, 0x90, 0xE0,
   0xF0, 0x80, 0xF0, 0x80, 0xF0,
   0xF0, 0x80, 0xF0, 0x80, 0x80]

/-- Failure of an operation: the `unimplemented!` catch-all of the opcode
dispatch, or a Rust panic from an out-of-bounds array index / `u16`
arithmetic underflow. -/
inductive Fault where
  | unrecognized (op : Nat)
  | outOfBounds
deriving DecidableEq, Repr

/-- Machine state of `struct Hachi`.  Arrays are total functions; the
in-bounds region is the one the operations below ever index after their
explicit bound checks. -/
structure Hachi where
  program_counter : Nat
  ram : Nat → Nat
  display : Nat → Bool
  v_registers : Nat → Nat
  i_register : Nat
  stack_pointer : Nat
  stack : Nat → Nat
  keys : Nat → Bool
  delay_timer : Nat
  sound_timer : Nat

/-- `dst[addr..addr+data.len()].copy_from_slice(data)` on a functional
array: write the bytes of `data` at consecutive addresses from `addr`. -/
def writeSeq (f : Nat → Nat) : Nat → List Nat → (Nat → Nat)
  | _, [] => f
  | addr, b :: rest => writeSeq (Function.update f addr b) (addr + 1) rest

/-- `Hachi::new`: zeroed state, program counter at 0x200, glyph table
copied into `ram[..80]`. -/
def Hachi.new : Hachi where
  program_counter := START_ADDRESS
  ram := writeSeq (fun _ => 0) 0 FONTSET
  display := fun _ => false
  v_registers := fun _ => 0
  i_register := 0
  stack_pointer := 0
  stack := fun _ => 0
  keys := fun _ => false
  delay_timer := 0
  sound_timer := 0

/-- `Hachi::reset`: reassigns every field exactly as construction does. -/
def Hachi.reset (_s : Hachi) : Hachi where
  program_counter := START_ADDRESS
  ram := writeSeq (fun _ => 0) 0 FONTSET
  display := fun _ => false
  v_registers := fun _ => 0
  i_register := 0
  stack_pointer := 0
  stack := fun _ => 0
  keys := fun _ => false
  delay_timer := 0
  sound_timer := 0

/-- `Hachi::tick_timers`: decrement each timer when it is positive. -/
def Hachi.tick_timers (s : Hachi) : Hachi :=
  let s1 := if s.delay_timer > 0 then { s with delay_timer := s.delay_timer - 1 } else s
  if s1.sound_timer > 0 then { s1 with sound_timer := s1.sound_timer - 1 } else s1

/-- `Hachi::get_audio`. -/
def Hachi.get_audio (s : Hachi) : Nat := s.sound_timer

/-- `Hachi::keypress`: `self.keys[idx] = pressed` (index panic when
`idx >= 16`). -/
def Hachi.keypress (s : Hachi) (idx : Nat) (pressed : Bool) : Except Fault Hachi :=
  if idx < NUM_KEYS then .ok { s with keys := Function.update s.keys idx pressed }
  else .error .outOfBounds

/-- `Hachi::load`: copy `data` into ram starting at 0x200 (slice panic when
the end exceeds ram capacity). -/
def Hachi.load (s : Hachi) (data : List Nat) : Except Fault Hachi :=
  if START_ADDRESS + data.length ≤ RAM_SIZE then
    .ok { s with ram := writeSeq s.ram START_ADDRESS data }
  else .error .outOfBounds

/-- `Hachi::push`: `stack[sp] = val; sp += 1` (index panic when `sp >= 16`). -/
def Hachi.push (s : Hachi) (val : Nat) : Except Fault Hachi :=
  if s.stack_pointer < STACK_SIZE then
    .ok { s with stack := Function.update s.stack s.stack_pointer val,
                 stack_pointer := s.stack_pointer + 1 }
  else .error .outOfBounds

/-- `Hachi::pop`: `sp -= 1; stack[sp]` (underflow panic when `sp = 0`,
index panic when the decremented pointer is still `>= 16`). -/
def Hachi.pop (s : Hachi) : Except Fault (Nat × Hachi) :=
  if 1 ≤ s.stack_pointer ∧ s.stack_pointer ≤ STACK_SIZE then
    .ok (s.stack (s.stack_pointer - 1), { s with stack_pointer := s.stack_pointer - 1 })
  else .error .outOfBounds

/-- Destination cell of sprite row `r`, column `c`:
`x = (x_coord + c) % 64; y = (y_coord + r) % 32; idx = x + 64 * y`. -/
def cellIndex (xc yc r c : Nat) : Nat :=
  (xc + c) % DISPLAY_WIDTH + DISPLAY_WIDTH * ((yc + r) % DISPLAY_HEIGHT)

/-- Body of the inner draw loop for pixel `(r, c) = rc`: when bit
`0b1000_0000 >> c` of the row byte is set, record a collision if the
destination cell is lit and XOR-toggle it.  `pix r` is the sprite row byte
`ram[i_register + r]`. -/
def dstep (pix : Nat → Nat) (xc yc : Nat) (a : (Nat → Bool) × Bool) (rc : Nat × Nat) :
    (Nat → Bool) × Bool :=
  if pix rc.1 &&& (0b10000000 >>> rc.2) ≠ 0 then
    (Function.update a.1 (cellIndex xc yc rc.1 rc.2) (!a.1 (cellIndex xc yc rc.1 rc.2)),
     a.2 || a.1 (cellIndex xc yc rc.1 rc.2))
  else a

/-- Inner loop `for x_line in 0..8` of the draw instruction over one row. -/
def drawRow (pixels xc yc yLine : Nat) (acc : (Nat → Bool) × Bool) : (Nat → Bool) × Bool :=
  (List.range 8).foldl (fun a xLine => dstep (fun _ => pixels) xc yc a (yLine, xLine)) acc

/-- Outer loop `for y_line in 0..num_rows` of the draw instruction, reading
each row byte `ram[i_register + y_line]` (index panic past ram capacity). -/
def drawSprite (ram : Nat → Nat) (i xc yc n : Nat) (disp : Nat → Bool) :
    Except Fault ((Nat → Bool) × Bool) :=
  (List.range n).foldlM
    (fun acc yLine =>
      if i + yLine < RAM_SIZE then .ok (drawRow (ram (i + yLine)) xc yc yLine acc)
      else .error .outOfBounds)
    (disp, false)

/-- Loop of `F,x,5,5`: `for idx in 0..=x { ram[i + idx] = v[idx] }`. -/
def storeRegs (ram : Nat → Nat) (i : Nat) (v : Nat → Nat) (x : Nat) : Nat → Nat :=
  (List.range (x + 1)).foldl (fun r idx => Function.update r (i + idx) (v idx)) ram

/-- Loop of `F,x,6,5`: `for idx in 0..=x { v[idx] = ram[i + idx] }`. -/
def loadRegs (v : Nat → Nat) (i : Nat) (ram : Nat → Nat) (x : Nat) : Nat → Nat :=
  (List.range (x + 1)).foldl (fun vv idx => Function.update vv idx (ram (i + idx))) v

/-- `Hachi::execute`: decode the four nibbles and dispatch.  `rb` is the
byte produced by `rand::random()` for instruction `C,x,nn`.  All `u8`
arithmetic wraps mod 256 exactly where the source wraps; `unimplemented!`
and index panics become errors.  The `F,x,3,3` digits are computed by `f32`
arithmetic in the source, which is exact on `u8` inputs, so they appear
here as integer division and remainder. -/
def Hachi.execute (s : Hachi) (op rb : Nat) : Except Fault Hachi :=
  match (op &&& 0xF000) >>> 12, (op &&& 0x0F00) >>> 8, (op &&& 0x00F0) >>> 4, op &&& 0x000F with
  | 0, 0, 0, 0 => .ok s
  | 0, 0, 0xE, 0 => .ok { s with display := fun _ => false }
  | 0, 0, 0xE, 0xE =>
    match s.pop with
    | .ok (return_address, s1) => .ok { s1 with program_counter := return_address }
    | .error e => .error e
  | 1, _, _, _ => .ok { s with program_counter := op &&& 0xFFF }
  | 2, _, _, _ =>
    match s.push s.program_counter with
    | .ok s1 => .ok { s1 with program_counter := op &&& 0xFFF }
    | .error e => .error e
  | 3, x, _, _ =>
    if s.v_registers x = op &&& 0xFF then .ok { s with program_counter := s.program_counter + 2 }
    else .ok s
  | 4, x, _, _ =>
    if s.v_registers x ≠ op &&& 0xFF then .ok { s with program_counter := s.program_counter + 2 }
    else .ok s
  | 5, x, y, 0 =>
    if s.v_registers x = s.v_registers y then
      .ok { s with program_counter := s.program_counter + 2 }
    else .ok s
  | 6, x, _, _ => .ok { s with v_registers := Function.update s.v_registers x (op &&& 0xFF) }
  | 7, x, _, _ =>
    .ok { s with v_registers :=
      Function.update s.v_registers x ((s.v_registers x + (op &&& 0xFF)) % 256) }
  | 8, x, y, 0 =>
    .ok { s with v_registers := Function.update s.v_registers x (s.v_registers y) }
  | 8, x, y, 1 =>
    .ok { s with v_registers :=
      Function.update s.v_registers x (s.v_registers x ||| s.v_registers y) }
  | 8, x, y, 2 =>
    .ok { s with v_registers :=
      Function.update s.v_registers x (s.v_registers x &&& s.v_registers y) }
  | 8, x, y, 3 =>
    .ok { s with v_registers :=
      Function.update s.v_registers x (s.v_registers x ^^^ s.v_registers y) }
  | 8, x, y, 4 =>
    let sum := s.v_registers x + s.v_registers y
    let new_vf := if sum ≥ 256 then 1 else 0
    .ok { s with v_registers :=
      Function.update (Function.update s.v_registers x (sum % 256)) 0xF new_vf }
  | 8, x, y, 5 =>
    let new_vx := (s.v_registers x + 256 - s.v_registers y) % 256
    let new_vf := if s.v_registers x < s.v_registers y then 0 else 1
    .ok { s with v_registers :=
      Function.update (Function.update s.v_registers x new_vx) 0xF new_vf }
  | 8, x, _, 6 =>
    let least_significant_bit := s.v_registers x &&& 1
    .ok { s with v_registers :=
      (Function.update (Function.update s.v_registers x (s.v_registers x >>> 1))
        0xF least_significant_bit) }
  | 8, x, y, 7 =>
    let new_vx := (s.v_registers y + 256 - s.v_registers x) % 256
    let new_vf := if s.v_registers y < s.v_registers x then 0 else 1
    .ok { s with v_registers :=
      Function.update (Function.update s.v_registers x new_vx) 0xF new_vf }
  | 8, x, _, 0xE =>
    let most_significant_bit := (s.v_registers x >>> 7) &&& 1
    .ok { s with v_registers :=
      (Function.update (Function.update s.v_registers x ((s.v_registers x <<< 1) % 256))
        0xF most_significant_bit) }
  | 9, x, y, 0 =>
    if s.v_registers x ≠ s.v_registers y then
      .ok { s with program_counter := s.program_counter + 2 }
    else .ok s
  | 0xA, _, _, _ => .ok { s with i_register := op &&& 0xFFF }
  | 0xB, _, _, _ => .ok { s with program_counter := s.v_registers 0 + (op &&& 0xFFF) }
  | 0xC, x, _, _ =>
    .ok { s with v_registers := Function.update s.v_registers x (rb &&& (op &&& 0xFF)) }
  | 0xD, x, y, n =>
    match drawSprite s.ram s.i_register (s.v_registers x) (s.v_registers y) n s.display with
    | .ok (disp, flipped) =>
      .ok { s with display := disp,
                   v_registers := Function.update s.v_registers 0xF (if flipped then 1 else 0) }
    | .error e => .error e
  | 0xE, x, 9, 0xE =>
    if s.v_registers x < NUM_KEYS then
      if s.keys (s.v_registers x) then .ok { s with program_counter := s.program_counter + 2 }
      else .ok s
    else .error .outOfBounds
  | 0xE, x, 0xA, 1 =>
    if s.v_registers x < NUM_KEYS then
      if !s.keys (s.v_registers x) then .ok { s with program_counter := s.program_counter + 2 }
      else .ok s
    else .error .outOfBounds
  | 0xF, x, 0, 7 =>
    .ok { s with v_registers := Function.update s.v_registers x s.delay_timer }
  | 0xF, x, 0, 0xA =>
    match (List.range NUM_KEYS).find? s.keys with
    | some i => .ok { s with v_registers := Function.update s.v_registers x i }
    | none =>
      if 2 ≤ s.program_counter then .ok { s with program_counter := s.program_counter - 2 }
      else .error .outOfBounds
  | 0xF, x, 1, 5 => .ok { s with delay_timer := s.v_registers x }
  | 0xF, x, 1, 8 => .ok { s with sound_timer := s.v_registers x }
  | 0xF, x, 1, 0xE =>
    .ok { s with i_register := (s.i_register + s.v_registers x) % 65536 }
  | 0xF, x, 2, 9 => .ok { s with i_register := s.v_registers x * 5 }
  | 0xF, x, 3, 3 =>
    if s.i_register + 2 < RAM_SIZE then
      .ok { s with ram :=
        (Function.update
          (Function.update
            (Function.update s.ram s.i_register (s.v_registers x / 100))
            (s.i_register + 1) (s.v_registers x / 10 % 10))
          (s.i_register + 2) (s.v_registers x % 10)) }
    else .error .outOfBounds
  | 0xF, x, 5, 5 =>
    if s.i_register + x < RAM_SIZE then
      .ok { s with ram := storeRegs s.ram s.i_register s.v_registers x }
    else .error .outOfBounds
  | 0xF, x, 6, 5 =>
    if s.i_register + x < RAM_SIZE then
      .ok { s with v_registers := loadRegs s.v_registers s.i_register s.ram x }
    else .error .outOfBounds
  | _, _, _, _ => .error (.unrecognized op)

/-- The 16-bit word at the program counter:
`(ram[pc] as u16) << 8 | ram[pc + 1] as u16`. -/
def Hachi.fetchWord (s : Hachi) : Nat :=
  (s.ram s.program_counter <<< 8) ||| s.ram (s.program_counter + 1)

/-- `Hachi::fetch`: read the word at the program counter and advance it by
two (index panic when `pc + 1` is past ram capacity). -/
def Hachi.fetch (s : Hachi) : Except Fault (Nat × Hachi) :=
  if s.program_counter + 1 < RAM_SIZE then
    .ok (s.fetchWord, { s with program_counter := s.program_counter + 2 })
  else .error .outOfBounds

/-- `Hachi::tick`: one fetch-decode-execute cycle; `rb` is the ambient
random byte used if the instruction is `C,x,nn`. -/
def Hachi.tick (s : Hachi) (rb : Nat) : Except Fault Hachi :=
  match s.fetch with
  | .ok (op, s1) => s1.execute op rb
  | .error e => .error e

/-! ### Bridge lemmas: nibble extraction as arithmetic -/

theorem and_shiftRight_distrib (x y k : Nat) : (x &&& y) >>> k = (x >>> k) &&& (y >>> k) := by
  apply Nat.eq_of_testBit_eq
  intro i
  simp [Nat.testBit_shiftRight, Nat.testBit_and]

theorem decodeD1 (op : Nat) : (op &&& 0xF000) >>> 12 = op / 4096 % 16 := by
  rw [and_shiftRight_distrib, show ((0xF000 : Nat) >>> 12) = 2 ^ 4 - 1 by decide,
    Nat.and_pow_two_sub_one_eq_mod, Nat.shiftRight_eq_div_pow]

theorem decodeD2 (op : Nat) : (op &&& 0x0F00) >>> 8 = op / 256 % 16 := by
  rw [and_shiftRight_distrib, show ((0x0F00 : Nat) >>> 8) = 2 ^ 4 - 1 by decide,
    Nat.and_pow_two_sub_one_eq_mod, Nat.shiftRight_eq_div_pow]

theorem decodeD3 (op : Nat) : (op &&& 0x00F0) >>> 4 = op / 16 % 16 := by
  rw [and_shiftRight_distrib, show ((0x00F0 : Nat) >>> 4) = 2 ^ 4 - 1 by decide,
    Nat.and_pow_two_sub_one_eq_mod, Nat.shiftRight_eq_div_pow]

theorem decodeD4 (op : Nat) : op &&& 0x000F = op % 16 := by
  rw [show (0x000F : Nat) = 2 ^ 4 - 1 by decide, Nat.and_pow_two_sub_one_eq_mod]

theorem decodeNNN (op : Nat) : op &&& 0xFFF = op % 4096 := by
  rw [show (0xFFF : Nat) = 2 ^ 12 - 1 by decide, Nat.and_pow_two_sub_one_eq_mod]

theorem decodeNN (op : Nat) : op &&& 0xFF = op % 256 := by
  rw [show (0xFF : Nat) = 2 ^ 8 - 1 by decide, Nat.and_pow_two_sub_one_eq_mod]

/-! ### Lemmas about `writeSeq` (slice copies) -/

theorem writeSeq_lt (data : List Nat) : ∀ (f : Nat → Nat) (addr a : Nat), a < addr →
    writeSeq f addr data a = f a := by
  induction data with
  | nil => intro f addr a _; rfl
  | cons b rest ih =>
    intro f addr a h
    show writeSeq (Function.update f addr b) (addr + 1) rest a = f a
    rw [ih _ _ _ (by omega), Function.update_noteq (by omega)]

theorem writeSeq_ge (data : List Nat) : ∀ (f : Nat → Nat) (addr a : Nat),
    addr + data.length ≤ a → writeSeq f addr data a = f a := by
  induction data with
  | nil => intro f addr a _; rfl
  | cons b rest ih =>
    intro f addr a h
    simp only [List.length_cons] at h
    show writeSeq (Function.update f addr b) (addr + 1) rest a = f a
    rw [ih _ _ _ (by omega), Function.update_noteq (by omega)]

theorem writeSeq_get (data : List Nat) : ∀ (f : Nat → Nat) (addr a : Nat), addr ≤ a →
    a < addr + data.length → writeSeq f addr data a = data.getD (a - addr) 0 := by
  induction data with
  | nil => intro f addr a h1 h2; simp at h2; omega
  | cons b rest ih =>
    intro f addr a h1 h2
    show writeSeq (Function.update f addr b) (addr + 1) rest a = _
    rcases Nat.eq_or_lt_of_le h1 with heq | hlt
    · subst heq
      rw [writeSeq_lt rest _ _ _ (by omega), Function.update_same]
      simp
    · rw [ih _ _ _ (by omega) (by simp at h2 ⊢; omega)]
      have : a - addr = (a - (addr + 1)) + 1 := by omega
      rw [this, List.getD_cons_succ]

/-- C6: for every machine state, `reset` yields a state equal to a freshly
constructed machine: program counter 512, glyph table in memory cells 0-79
and all other memory cells zero, all registers, the index register, the
stack, the stack pointer and both timers zero, and all keys and display
cells false. -/
theorem c6_reset_is_fresh_construction (s : Hachi) :
    s.reset = Hachi.new ∧
    Hachi.new.program_counter = 512 ∧
    Hachi.new.ram = (fun a => if a < 80 then FONTSET.getD a 0 else 0) ∧
    Hachi.new.v_registers = (fun _ => 0) ∧
    Hachi.new.i_register = 0 ∧
    Hachi.new.stack = (fun _ => 0) ∧
    Hachi.new.stack_pointer = 0 ∧
    Hachi.new.delay_timer = 0 ∧
    Hachi.new.sound_timer = 0 ∧
    Hachi.new.keys = (fun _ => false) ∧
    Hachi.new.display = (fun _ => false) := by
  refine ⟨rfl, rfl, ?_, rfl, rfl, rfl, rfl, rfl, rfl, rfl, rfl⟩
  funext a
  show writeSeq (fun _ => 0) 0 FONTSET a = _
  by_cases h : a < 80
  · rw [writeSeq_get FONTSET _ _ _ (Nat.zero_le a) (by simpa using h), if_pos h]
    simp
  · rw [writeSeq_ge FONTSET _ _ _ (by simpa using h), if_neg h]

theorem tick_timers_delay (s : Hachi) : s.tick_timers.delay_timer = s.delay_timer - 1 := by
  unfold Hachi.tick_timers
  dsimp only
  split <;> split <;> simp_all

theorem tick_timers_sound (s : Hachi) : s.tick_timers.sound_timer = s.sound_timer - 1 := by
  unfold Hachi.tick_timers
  dsimp only
  split <;> split <;> simp_all

/-- C7: `tick_timers` decrements each timer by exactly 1 when nonzero and
leaves it at 0 when zero (so iterating it `n` times yields the truncated
difference and never underflows), and it modifies no other state field. -/
theorem c7_tick_timers_floored_decrement (s : Hachi) :
    (s.tick_timers.delay_timer = if s.delay_timer = 0 then 0 else s.delay_timer - 1) ∧
    (s.tick_timers.sound_timer = if s.sound_timer = 0 then 0 else s.sound_timer - 1) ∧
    (∀ n : Nat, (Hachi.tick_timers^[n] s).delay_timer = s.delay_timer - n) ∧
    (∀ n : Nat, (Hachi.tick_timers^[n] s).sound_timer = s.sound_timer - n) ∧
    s.tick_timers.program_counter = s.program_counter ∧
    s.tick_timers.ram = s.ram ∧
    s.tick_timers.display = s.display ∧
    s.tick_timers.v_registers = s.v_registers ∧
    s.tick_timers.i_register = s.i_register ∧
    s.tick_timers.stack_pointer = s.stack_pointer ∧
    s.tick_timers.stack = s.stack ∧
    s.tick_timers.keys = s.keys := by
  refine ⟨?_, ?_, ?_, ?_, ?_, ?_, ?_, ?_, ?_, ?_, ?_, ?_⟩
  · rw [tick_timers_delay]; split <;> omega
  · rw [tick_timers_sound]; split <;> omega
  · intro n
    induction n with
    | zero => rfl
    | succ k ih => rw [Function.iterate_succ_apply', tick_timers_delay, ih]; omega
  · intro n
    induction n with
    | zero => rfl
    | succ k ih => rw [Function.iterate_succ_apply', tick_timers_sound, ih]; omega
  all_goals (unfold Hachi.tick_timers; dsimp only; split <;> split <;> rfl)

/-! ### C2: shift instructions -/

/-- Modelled from the spec sentence, for comparison with the code: the
claimed effect of `8,x,_,6` with the two assignments `V15 := Vx & 1` and
then `Vx := Vx >> 1` taking effect in that order. -/
def shrSpecOrder (v : Nat → Nat) (x : Nat) : Nat → Nat :=
  let v1 := Function.update v 15 (v x &&& 1)
  Function.update v1 x (v1 x >>> 1)

/-- Modelled from the spec sentence, for comparison with the code: the
claimed effect of `8,x,_,E` with the two assignments `V15 := (Vx>>7) & 1`
and then `Vx := Vx << 1 mod 256` taking effect in that order. -/
def shlSpecOrder (v : Nat → Nat) (x : Nat) : Nat → Nat :=
  let v1 := Function.update v 15 ((v x >>> 7) &&& 1)
  Function.update v1 x ((v1 x <<< 1) % 256)

/-- State with `V15 = 1` on which the claimed assignment order for
`8,F,0,6` disagrees with the code. -/
def c2state : Hachi := { Hachi.new with v_registers := Function.update Hachi.new.v_registers 15 1 }

/-- C2 counterexample: at `x = 15` with `V15 = 1`, the code executing
`0x8F06` leaves `V15 = 1` (the flag assignment happens after the shift and
overwrites it), while the claimed order `V15 := Vx & 1; Vx := Vx >> 1`
would end with `V15 = 0`. -/
theorem c2_counterexample :
    (Hachi.execute c2state 0x8F06 0).map (fun t => t.v_registers 15) = .ok 1 ∧
    shrSpecOrder c2state.v_registers 15 15 = 0 := by
  constructor <;> rfl

/-- C2 amended: instruction `8,x,_,6` performs `Vx := Vx >> 1` and then
`V15 := old Vx & 1`, and `8,x,_,E` performs `Vx := Vx << 1 mod 256` and
then `V15 := (old Vx >> 7) & 1`: the flag assignment takes effect second,
so for `x ≠ 15` the net effect is exactly the claimed one, while for
`x = 15` the register ends up holding the shifted-out-bit flag
(`V15 := V15 & 1` resp. `V15 := (V15 >> 7) & 1`), not the shifted value. -/
theorem c2_amended_shift_semantics (s : Hachi) (op rb x : Nat)
    (hx : op / 256 % 16 = x) (hd1 : op / 4096 % 16 = 8) :
    (op % 16 = 6 →
      Hachi.execute s op rb = .ok { s with v_registers :=
        (Function.update (Function.update s.v_registers x (s.v_registers x >>> 1))
          15 (s.v_registers x &&& 1)) }) ∧
    (op % 16 = 14 →
      Hachi.execute s op rb = .ok { s with v_registers :=
        (Function.update (Function.update s.v_registers x ((s.v_registers x <<< 1) % 256))
          15 ((s.v_registers x >>> 7) &&& 1)) }) ∧
    (op % 16 = 6 → x ≠ 15 →
      (Hachi.execute s op rb).map (fun t => (t.v_registers x, t.v_registers 15))
        = .ok ((s.v_registers x >>> 1), (s.v_registers x &&& 1))) ∧
    (op % 16 = 6 → x = 15 →
      (Hachi.execute s op rb).map (fun t => t.v_registers 15) = .ok (s.v_registers 15 &&& 1)) ∧
    (op % 16 = 14 → x ≠ 15 →
      (Hachi.execute s op rb).map (fun t => (t.v_registers x, t.v_registers 15))
        = .ok (((s.v_registers x <<< 1) % 256), ((s.v_registers x >>> 7) &&& 1))) ∧
    (op % 16 = 14 → x = 15 →
      (Hachi.execute s op rb).map (fun t => t.v_registers 15)
        = .ok ((s.v_registers 15 >>> 7) &&& 1)) := by
  have h6 : op % 16 = 6 →
      Hachi.execute s op rb = .ok { s with v_registers :=
        (Function.update (Function.update s.v_registers x (s.v_registers x >>> 1))
          15 (s.v_registers x &&& 1)) } := by
    intro hd4
    unfold Hachi.execute
    rw [decodeD1, hd1, decodeD4, hd4, decodeD2, hx]
  have hE : op % 16 = 14 →
      Hachi.execute s op rb = .ok { s with v_registers :=
        (Function.update (Function.update s.v_registers x ((s.v_registers x <<< 1) % 256))
          15 ((s.v_registers x >>> 7) &&& 1)) } := by
    intro hd4
    unfold Hachi.execute
    rw [decodeD1, hd1, decodeD4, hd4, decodeD2, hx]
  refine ⟨h6, hE, ?_, ?_, ?_, ?_⟩
  · intro hd4 hne
    rw [h6 hd4]
    simp [Except.map, Function.update_noteq hne, Function.update_same,
      Function.update_noteq (Ne.symm hne)]
  · intro hd4 hxe
    subst hxe
    rw [h6 hd4]
    simp [Except.map, Function.update_same]
  · intro hd4 hne
    rw [hE hd4]
    simp [Except.map, Function.update_noteq hne, Function.update_same,
      Function.update_noteq (Ne.symm hne)]
  · intro hd4 hxe
    subst hxe
    rw [hE hd4]
    simp [Except.map, Function.update_same]

/-- C2 witness: the amended theorem applied at `op = 0x8306` and
`op = 0x830E` on a concrete state with `V3 = 5`. -/
theorem c2_amended_witness :
    (Hachi.execute { Hachi.new with v_registers := Function.update Hachi.new.v_registers 3 5 }
        0x8306 0).map (fun t => (t.v_registers 3, t.v_registers 15)) = .ok (2, 1) ∧
    (Hachi.execute { Hachi.new with v_registers := Function.update Hachi.new.v_registers 3 5 }
        0x830E 0).map (fun t => (t.v_registers 3, t.v_registers 15)) = .ok (10, 0) := by
  constructor
  · have h := (c2_amended_shift_semantics
      { Hachi.new with v_registers := Function.update Hachi.new.v_registers 3 5 }
      0x8306 0 3 (by decide) (by decide)).2.2.1 (by decide) (by decide)
    exact h
  · have h := (c2_amended_shift_semantics
      { Hachi.new with v_registers := Function.update Hachi.new.v_registers 3 5 }
      0x830E 0 3 (by decide) (by decide)).2.2.2.2.1 (by decide) (by decide)
    exact h

/-- C10: executing the draw instruction with row count `n = 0` leaves every
framebuffer cell and all memory unchanged (the result state differs from
the input only in `v_registers`) and unconditionally sets register 15 to 0,
whatever its prior value. -/
theorem c10_draw_zero_rows (s : Hachi) (op rb : Nat)
    (hd1 : op / 4096 % 16 = 13) (hn : op % 16 = 0) :
    Hachi.execute s op rb = .ok { s with v_registers := (Function.update s.v_registers 15 0) } := by
  unfold Hachi.execute
  rw [decodeD1, hd1, decodeD4, hn]
  exact rfl

/-- C10 witness: `0xD120` executed on a state with `V15 = 7` and a fully
lit display returns the same state with `V15` cleared. -/
theorem c10_draw_zero_rows_witness :
    Hachi.execute { Hachi.new with v_registers := fun _ => 7, display := fun _ => true }
        0xD120 0
      = .ok { { Hachi.new with v_registers := fun _ => 7, display := fun _ => true } with
          v_registers :=
            (Function.update
              { Hachi.new with v_registers := fun _ => 7, display := fun _ => true }.v_registers
              15 0) } :=
  c10_draw_zero_rows { Hachi.new with v_registers := fun _ => 7, display := fun _ => true }
    0xD120 0 (by decide) (by decide)
/-- The 35 instruction forms of the dispatch table, phrased over the four
nibbles `d1 = op/4096%16`, `d2 = op/256%16`, `d3 = op/16%16`, `d4 = op%16`. -/
def recognizedSpec (op : Nat) : Prop :=
  (op / 4096 % 16 = 0 ∧ op / 256 % 16 = 0 ∧ op / 16 % 16 = 0 ∧ op % 16 = 0) ∨
  (op / 4096 % 16 = 0 ∧ op / 256 % 16 = 0 ∧ op / 16 % 16 = 14 ∧ op % 16 = 0) ∨
  (op / 4096 % 16 = 0 ∧ op / 256 % 16 = 0 ∧ op / 16 % 16 = 14 ∧ op % 16 = 14) ∨
  (op / 4096 % 16 = 1) ∨ (op / 4096 % 16 = 2) ∨ (op / 4096 % 16 = 3) ∨ (op / 4096 % 16 = 4) ∨
  (op / 4096 % 16 = 5 ∧ op % 16 = 0) ∨ (op / 4096 % 16 = 6) ∨ (op / 4096 % 16 = 7) ∨
  (op / 4096 % 16 = 8 ∧ op % 16 ≤ 7) ∨ (op / 4096 % 16 = 8 ∧ op % 16 = 14) ∨
  (op / 4096 % 16 = 9 ∧ op % 16 = 0) ∨
  (op / 4096 % 16 = 10) ∨ (op / 4096 % 16 = 11) ∨ (op / 4096 % 16 = 12) ∨
  (op / 4096 % 16 = 13) ∨
  (op / 4096 % 16 = 14 ∧ op / 16 % 16 = 9 ∧ op % 16 = 14) ∨
  (op / 4096 % 16 = 14 ∧ op / 16 % 16 = 10 ∧ op % 16 = 1) ∨
  (op / 4096 % 16 = 15 ∧ op / 16 % 16 = 0 ∧ op % 16 = 7) ∨
  (op / 4096 % 16 = 15 ∧ op / 16 % 16 = 0 ∧ op % 16 = 10) ∨
  (op / 4096 % 16 = 15 ∧ op / 16 % 16 = 1 ∧ op % 16 = 5) ∨
  (op / 4096 % 16 = 15 ∧ op / 16 % 16 = 1 ∧ op % 16 = 8) ∨
  (op / 4096 % 16 = 15 ∧ op / 16 % 16 = 1 ∧ op % 16 = 14) ∨
  (op / 4096 % 16 = 15 ∧ op / 16 % 16 = 2 ∧ op % 16 = 9) ∨
  (op / 4096 % 16 = 15 ∧ op / 16 % 16 = 3 ∧ op % 16 = 3) ∨
  (op / 4096 % 16 = 15 ∧ op / 16 % 16 = 5 ∧ op % 16 = 5) ∨
  (op / 4096 % 16 = 15 ∧ op / 16 % 16 = 6 ∧ op % 16 = 5)

set_option maxHeartbeats 4000000 in
theorem execute_unrecognized (s : Hachi) (op rb : Nat) (h : ¬ recognizedSpec op) :
    Hachi.execute s op rb = .error (.unrecognized op) := by
  unfold recognizedSpec at h
  push_neg at h
  obtain ⟨n1, n2, n3, n4, n5, n6, n7, n8, n9, n10, n11, n12, n13, n14, n15, n16, n17, n18,
    n19, n20, n21, n22, n23, n24, n25, n26, n27, n28⟩ := h
  generalize hd4 : op % 16 = d4 at *
  generalize hd3 : op / 16 % 16 = d3 at *
  generalize hd2 : op / 256 % 16 = d2 at *
  generalize hd1 : op / 4096 % 16 = d1 at *
  have hb1 : d1 < 16 := by omega
  have hb2 : d2 < 16 := by omega
  have hb3 : d3 < 16 := by omega
  have hb4 : d4 < 16 := by omega
  interval_cases d1
  · interval_cases d2 <;>
      first
        | (unfold Hachi.execute; rw [decodeD1, hd1, decodeD2, hd2]; done)
        | (interval_cases d3 <;>
            first
              | (unfold Hachi.execute; rw [decodeD1, hd1, decodeD2, hd2, decodeD3, hd3]; done)
              | (interval_cases d4 <;>
                  first
                    | exact absurd rfl (n1 rfl rfl rfl)
                    | exact absurd rfl (n2 rfl rfl rfl)
                    | exact absurd rfl (n3 rfl rfl rfl)
                    | (unfold Hachi.execute
                       rw [decodeD1, hd1, decodeD2, hd2, decodeD3, hd3, decodeD4, hd4]
                       done)))
  · exact absurd rfl n4
  · exact absurd rfl n5
  · exact absurd rfl n6
  · exact absurd rfl n7
  · interval_cases d4 <;>
      first
        | exact absurd rfl (n8 rfl)
        | (unfold Hachi.execute; rw [decodeD1, hd1, decodeD4, hd4]; done)
  · exact absurd rfl n9
  · exact absurd rfl n10
  · interval_cases d4 <;>
      first
        | exact absurd (n11 rfl) (by decide)
        | exact absurd rfl (n12 rfl)
        | (unfold Hachi.execute; rw [decodeD1, hd1, decodeD4, hd4]; done)
  · interval_cases d4 <;>
      first
        | exact absurd rfl (n13 rfl)
        | (unfold Hachi.execute; rw [decodeD1, hd1, decodeD4, hd4]; done)
  · exact absurd rfl n14
  · exact absurd rfl n15
  · exact absurd rfl n16
  · exact absurd rfl n17
  · interval_cases d3 <;>
      first
        | (unfold Hachi.execute; rw [decodeD1, hd1, decodeD3, hd3]; done)
        | (interval_cases d4 <;>
            first
              | exact absurd rfl (n18 rfl rfl)
              | exact absurd rfl (n19 rfl rfl)
              | (unfold Hachi.execute; rw [decodeD1, hd1, decodeD3, hd3, decodeD4, hd4]; done))
  · interval_cases d3 <;>
      first
        | (unfold Hachi.execute; rw [decodeD1, hd1, decodeD3, hd3]; done)
        | (interval_cases d4 <;>
            first
              | exact absurd rfl (n20 rfl rfl)
              | exact absurd rfl (n21 rfl rfl)
              | exact absurd rfl (n22 rfl rfl)
              | exact absurd rfl (n23 rfl rfl)
              | exact absurd rfl (n24 rfl rfl)
              | exact absurd rfl (n25 rfl rfl)
              | exact absurd rfl (n26 rfl rfl)
              | exact absurd rfl (n27 rfl rfl)
              | exact absurd rfl (n28 rfl rfl)
              | (unfold Hachi.execute; rw [decodeD1, hd1, decodeD3, hd3, decodeD4, hd4]; done))

/-- C5: for every machine state whose fetched instruction word matches none
of the 35 listed instruction forms, the tick takes the fatal
unrecognized-instruction path and execution does not continue. -/
theorem c5_unrecognized_instruction_fatal (s : Hachi) (rb : Nat)
    (hpc : s.program_counter + 1 < 4096) (h : ¬ recognizedSpec s.fetchWord) :
    Hachi.tick s rb = .error (.unrecognized s.fetchWord) := by
  unfold Hachi.tick Hachi.fetch
  rw [if_pos (show s.program_counter + 1 < RAM_SIZE from hpc)]
  exact execute_unrecognized _ _ _ h

/-- The machine obtained by loading `[0x50, 0x01]` (scenario D: group 5
with `d4 = 1`, an invalid pattern) into a fresh machine. -/
def hachi5001 : Hachi :=
  match Hachi.new.load [0x50, 0x01] with
  | .ok t => t
  | .error _ => Hachi.new

/-- C5 witness: the catch-all arm is reachable: loading `[0x50, 0x01]` and
ticking once hits the fatal unrecognized-instruction path. -/
theorem c5_unrecognized_instruction_fatal_witness :
    Hachi.new.load [0x50, 0x01] = .ok hachi5001 ∧
    hachi5001.fetchWord = 0x5001 ∧
    ¬ recognizedSpec 0x5001 ∧
    Hachi.tick hachi5001 0 = .error (.unrecognized 0x5001) := by
  refine ⟨rfl, rfl, by unfold recognizedSpec; decide, ?_⟩
  exact c5_unrecognized_instruction_fatal hachi5001 0 (by decide)
    (by unfold recognizedSpec; decide)
theorem find?_range'_least (k : Nat → Bool) : ∀ (n a i : Nat), a ≤ i → i < a + n →
    k i = true → (∀ j, a ≤ j → j < i → k j = false) →
    (List.range' a n).find? k = some i := by
  intro n
  induction n with
  | zero => intro a i h1 h2 _ _; omega
  | succ m ih =>
    intro a i h1 h2 hk hlow
    rw [List.range'_succ]
    rcases Nat.eq_or_lt_of_le h1 with he | hlt
    · subst he
      exact List.find?_cons_of_pos _ hk
    · rw [List.find?_cons_of_neg _ (by simp [hlow a le_rfl hlt])]
      exact ih (a + 1) i (by omega) (by omega) hk (fun j hj1 hj2 => hlow j (by omega) hj2)

/-- C9: when the wait-for-key instruction `F,x,0,A` executes with at least
one key pressed, `Vx` receives the lowest pressed key index (keys are
scanned in ascending order and the first pressed one is chosen) and the
program counter is not rewound; the program counter is rewound by 2 exactly
when no key at all is pressed. -/
theorem c9_wait_key_lowest_index (s : Hachi) (op rb x : Nat)
    (hx : op / 256 % 16 = x) (hd1 : op / 4096 % 16 = 15)
    (hd3 : op / 16 % 16 = 0) (hd4 : op % 16 = 10) :
    (∀ i, i < 16 → s.keys i = true → (∀ j, j < i → s.keys j = false) →
      Hachi.execute s op rb
        = .ok { s with v_registers := (Function.update s.v_registers x i) }) ∧
    ((∀ i, i < 16 → s.keys i = false) → 2 ≤ s.program_counter →
      Hachi.execute s op rb
        = .ok { s with program_counter := s.program_counter - 2 }) := by
  constructor
  · intro i hi hk hlow
    unfold Hachi.execute
    rw [decodeD1, hd1, decodeD3, hd3, decodeD4, hd4, decodeD2, hx]
    unfold NUM_KEYS
    rw [List.range_eq_range',
      find?_range'_least s.keys 16 0 i (Nat.zero_le i) (by omega) hk
        (fun j _ hj => hlow j hj)]
  · intro hnone hpc
    unfold Hachi.execute
    rw [decodeD1, hd1, decodeD3, hd3, decodeD4, hd4, decodeD2, hx]
    unfold NUM_KEYS
    rw [List.find?_eq_none.mpr (fun j hj => by
      simp only [List.mem_range] at hj
      simp [hnone j hj])]
    rw [if_pos hpc]

/-- State with keys 3 and 5 pressed, for the C9 witness. -/
def c9state : Hachi := { Hachi.new with keys := fun i => i == 3 || i == 5 }

/-- C9 witness: with keys 3 and 5 pressed, `0xF20A` stores 3 (the lowest
pressed index) into `V2` without rewinding; with no key pressed, it rewinds
the program counter by 2. -/
theorem c9_wait_key_lowest_index_witness :
    Hachi.execute c9state 0xF20A 0
      = .ok { c9state with v_registers := (Function.update c9state.v_registers 2 3) } ∧
    Hachi.execute Hachi.new 0xF20A 0
      = .ok { Hachi.new with program_counter := Hachi.new.program_counter - 2 } := by
  constructor
  · exact (c9_wait_key_lowest_index c9state 0xF20A 0 2 (by decide) (by decide) (by decide)
      (by decide)).1 3 (by decide) (by decide) (by decide)
  · exact (c9_wait_key_lowest_index Hachi.new 0xF20A 0 2 (by decide) (by decide) (by decide)
      (by decide)).2 (by decide) (by decide)
/-- State loaded with the random-AND instruction `0xC0FF`, for C3. -/
def c3state : Hachi :=
  match Hachi.new.load [0xC0, 0xFF] with
  | .ok t => t
  | .error _ => Hachi.new

/-- C3 counterexample: from one and the same machine state, one tick of the
`C,x,nn` instruction produces different successor states for different
ambient random bytes, so the successor state is not a function of the
machine state alone: the random byte comes from the ambient
`rand::random()` generator, not from seedable machine state. -/
theorem c3_counterexample :
    (Hachi.tick c3state 0).map (fun t => t.v_registers 0) = .ok 0 ∧
    (Hachi.tick c3state 255).map (fun t => t.v_registers 0) = .ok 255 := by
  constructor <;> rfl

set_option maxHeartbeats 4000000 in
theorem execute_rb_irrelevant (s : Hachi) (op rb1 rb2 : Nat) (h : op / 4096 % 16 ≠ 12) :
    Hachi.execute s op rb1 = Hachi.execute s op rb2 := by
  generalize hd4 : op % 16 = d4 at *
  generalize hd3 : op / 16 % 16 = d3 at *
  generalize hd2 : op / 256 % 16 = d2 at *
  generalize hd1 : op / 4096 % 16 = d1 at *
  have hb1 : d1 < 16 := by omega
  have hb2 : d2 < 16 := by omega
  have hb3 : d3 < 16 := by omega
  have hb4 : d4 < 16 := by omega
  interval_cases d1
  · interval_cases d2 <;>
      first
        | (unfold Hachi.execute; rw [decodeD1, hd1, decodeD2, hd2]; done)
        | (interval_cases d3 <;>
            first
              | (unfold Hachi.execute; rw [decodeD1, hd1, decodeD2, hd2, decodeD3, hd3]; done)
              | (interval_cases d4 <;>
                  (unfold Hachi.execute
                   rw [decodeD1, hd1, decodeD2, hd2, decodeD3, hd3, decodeD4, hd4])))
  · unfold Hachi.execute; rw [decodeD1, hd1]
  · unfold Hachi.execute; rw [decodeD1, hd1]
  · unfold Hachi.execute; rw [decodeD1, hd1]
  · unfold Hachi.execute; rw [decodeD1, hd1]
  · interval_cases d4 <;> (unfold Hachi.execute; rw [decodeD1, hd1, decodeD4, hd4])
  · unfold Hachi.execute; rw [decodeD1, hd1]
  · unfold Hachi.execute; rw [decodeD1, hd1]
  · interval_cases d4 <;> (unfold Hachi.execute; rw [decodeD1, hd1, decodeD4, hd4])
  · interval_cases d4 <;> (unfold Hachi.execute; rw [decodeD1, hd1, decodeD4, hd4])
  · unfold Hachi.execute; rw [decodeD1, hd1]
  · unfold Hachi.execute; rw [decodeD1, hd1]
  · exact absurd rfl h
  · unfold Hachi.execute; rw [decodeD1, hd1]
  · interval_cases d3 <;>
      first
        | (unfold Hachi.execute; rw [decodeD1, hd1, decodeD3, hd3]; done)
        | (interval_cases d4 <;>
            (unfold Hachi.execute; rw [decodeD1, hd1, decodeD3, hd3, decodeD4, hd4]))
  · interval_cases d3 <;>
      first
        | (unfold Hachi.execute; rw [decodeD1, hd1, decodeD3, hd3]; done)
        | (interval_cases d4 <;>
            (unfold Hachi.execute; rw [decodeD1, hd1, decodeD3, hd3, decodeD4, hd4]))

/-- C3 amended: one tick is a deterministic pure function of the machine
state together with the consumed ambient random byte; whenever the fetched
instruction is not of the `C,x,nn` group, the tick does not depend on the
random byte at all.  As the counterexample shows, for `C,x,nn` the result
does depend on the ambient byte of the hard-wired global `rand::random()`
generator, which is not an injectable, independently seedable source. -/
theorem c3_deterministic_except_random (s : Hachi) (rb1 rb2 : Nat)
    (h : s.fetchWord / 4096 % 16 ≠ 12) : Hachi.tick s rb1 = Hachi.tick s rb2 := by
  unfold Hachi.tick Hachi.fetch
  by_cases hpc : s.program_counter + 1 < RAM_SIZE
  · rw [if_pos hpc]
    exact execute_rb_irrelevant _ _ _ _ h
  · rw [if_neg hpc]

/-- C3 amended witness: on a fresh machine (whose fetched word is the no-op
`0x0000`), ticks with different random bytes agree. -/
theorem c3_deterministic_except_random_witness :
    Hachi.tick Hachi.new 3 = Hachi.tick Hachi.new 250 :=
  c3_deterministic_except_random Hachi.new 3 250 (by decide)
/-- C8: with stack pointer below 16, a tick executing call `2,nnn` pushes
the address of the instruction after the call (old program counter + 2)
onto the stack and jumps to `nnn`; a later tick executing return `0,0,E,E`
from any state with that stack and stack pointer pops it back into the
program counter, so a call/return pair resumes at the instruction
following the call. -/
theorem c8_call_return_roundtrip (s t : Hachi) (nnn rb rb2 : Nat)
    (hnnn : nnn < 4096) (hsp : s.stack_pointer < 16)
    (hpc : s.program_counter + 1 < 4096) (hw : s.fetchWord = 0x2000 + nnn) :
    (Hachi.tick s rb = .ok { s with
        program_counter := nnn,
        stack := (Function.update s.stack s.stack_pointer (s.program_counter + 2)),
        stack_pointer := s.stack_pointer + 1 }) ∧
    (t.stack = Function.update s.stack s.stack_pointer (s.program_counter + 2) →
      t.stack_pointer = s.stack_pointer + 1 →
      t.program_counter + 1 < 4096 →
      t.fetchWord = 0x00EE →
      Hachi.tick t rb2 = .ok { t with
        program_counter := s.program_counter + 2,
        stack_pointer := s.stack_pointer }) := by
  constructor
  · unfold Hachi.tick Hachi.fetch
    rw [if_pos (show s.program_counter + 1 < RAM_SIZE from hpc)]
    show Hachi.execute { s with program_counter := s.program_counter + 2 } s.fetchWord rb = _
    rw [hw]
    unfold Hachi.execute
    rw [decodeD1, show (0x2000 + nnn) / 4096 % 16 = 2 from by omega]
    unfold Hachi.push
    rw [if_pos (show ({ s with program_counter := s.program_counter + 2 } : Hachi).stack_pointer
      < STACK_SIZE from hsp)]
    rw [decodeNNN, show (0x2000 + nnn) % 4096 = nnn from by omega]
  · intro hst hsp2 hpc2 hw2
    unfold Hachi.tick Hachi.fetch
    rw [if_pos (show t.program_counter + 1 < RAM_SIZE from hpc2)]
    show Hachi.execute { t with program_counter := t.program_counter + 2 } t.fetchWord rb2 = _
    rw [hw2]
    unfold Hachi.execute Hachi.pop
    dsimp only
    rw [hsp2, Nat.add_sub_cancel, hst]
    rw [if_pos (show 1 ≤ s.stack_pointer + 1 ∧ s.stack_pointer + 1 ≤ STACK_SIZE from
      ⟨by omega, by have h16 : STACK_SIZE = 16 := rfl; omega⟩)]
    rw [Function.update_same]

/-- Fresh machine loaded with `call 0x204` at 0x200 and `return` at 0x204,
for the C8 witness. -/
def c8s0 : Hachi :=
  match Hachi.new.load [0x22, 0x04, 0x00, 0x00, 0x00, 0xEE] with
  | .ok u => u
  | .error _ => Hachi.new

/-- The machine after the call tick, for the C8 witness. -/
def c8s1 : Hachi :=
  match Hachi.tick c8s0 0 with
  | .ok u => u
  | .error _ => Hachi.new

/-- C8 witness: on the loaded program, the call tick pushes 0x202 and jumps
to 0x204, and the return tick resumes at 0x202 with the stack pointer back
at 0. -/
theorem c8_call_return_roundtrip_witness :
    Hachi.tick c8s0 0 = .ok { c8s0 with
        program_counter := 0x204,
        stack := (Function.update c8s0.stack c8s0.stack_pointer (c8s0.program_counter + 2)),
        stack_pointer := c8s0.stack_pointer + 1 } ∧
    Hachi.tick c8s1 0 = .ok { c8s1 with
        program_counter := 0x202,
        stack_pointer := 0 } := by
  have h := c8_call_return_roundtrip c8s0 c8s1 0x204 0 0 (by decide) (by decide) (by decide)
    (by decide)
  exact ⟨h.1, h.2 rfl rfl (by decide) (by decide)⟩
